import Mathlib

/-!
Verification of the Continuum worker core against its specification.

The definitions below are a shallow embedding of the Go source:
* `model/task.go` — the `TaskStatus` enumeration and the `Task` record;
* `processor` (the worker pipeline file) — `ProcessTasks` and `RecoverTasks`;
* `containerization` — `ExecuteTaskInDocker` (docker effects abstracted into
  an explicit oracle record, control flow kept);
* `logging/logs.go` — `WorkerStats.UpdateStats`;
* `main.go` — the polling-interval computation, the priority-band wiring of
  the `ProcessTasks` call, and the wake-event loop.

Timestamps are modelled as integers (seconds); SQL `NOW()` becomes an explicit
`now` argument.  The task table is a list of rows in insertion order.  Counters
are natural numbers (the Go `uint64` counters only ever receive 0/1 deltas).
-/

namespace Continuum

/-- Task lifecycle states, from `model/task.go` (`TaskStatus` constants
`not_started`, `pending`, `running`, `done`, `completed`, `cancelled`,
`failed`, `malicious`). -/
inductive TaskStatus where
  | notStarted
  | pending
  | running
  | done
  | completed
  | cancelled
  | failed
  | malicious
deriving DecidableEq, Repr

/-- A row of the `TASKS` table / the Go `model.Task` record.  `workerId` is a
column of the table (set by the claim update) although the Go struct omits it.
`code` initially holds the code UUID and is overwritten with the resolved
script text by the worker (the aliasing noted in the spec). -/
structure Task where
  id : Nat
  name : String
  description : Option String
  started : Option Int
  finished : Option Int
  lockedAt : Option Int
  lastError : Option String
  priority : Int
  status : TaskStatus
  payload : String
  code : String
  workerId : Option String
  output : Option String
deriving DecidableEq, Repr

/-- `main.go`: the fallback ticker is created with
`time.NewTicker(time.Duration(POLLING_INTERVAL | 5) * time.Second)`;
the effective interval in seconds is the bitwise OR of the configured
value with 5. -/
def effectivePollingInterval (pollingInterval : Nat) : Nat :=
  pollingInterval ||| 5

/-- `RecoverTasks` stale predicate: `STATUS = 'running' AND
LOCKED_AT < NOW() - INTERVAL '1 hour'`. -/
def isStale (now : Int) (t : Task) : Bool :=
  decide (t.status = TaskStatus.running) &&
    (match t.lockedAt with
     | some l => decide (l < now - 3600)
     | none => false)

/-- The row rewrite applied by `RecoverTasks` to a stale row:
`STATUS = 'failed', FINISHED = NOW(), LAST_ERROR = 'Timeout/Worker Crash (1h limit)'`. -/
def recoverRow (now : Int) (t : Task) : Task :=
  { t with
    status := TaskStatus.failed
    finished := some now
    lastError := some "Timeout/Worker Crash (1h limit)" }

/-- `processor.RecoverTasks`: the SQL `UPDATE ... WHERE` applied row by row to
the table, together with the affected-row count (`RowsAffected`). -/
def RecoverTasks (now : Int) : List Task → List Task × Nat
  | [] => ([], 0)
  | t :: ts =>
    let rest := RecoverTasks now ts
    if isStale now t then (recoverRow now t :: rest.1, rest.2 + 1)
    else (t :: rest.1, rest.2)

/-- The `WHERE` clause of the claim query in `ProcessTasks`:
`STATUS = 'pending' AND LOCKED_AT IS NULL AND ($1 = 0 OR priority >= $1)
AND ($2 = 0 OR priority <= $2)`, where the source binds `$1 :=` the
`minPriority` parameter and `$2 :=` the `maxPriority` parameter
(`tx.QueryRow(query, minPriority, maxPriority)`). -/
def queryAdmits (minPriority maxPriority : Int) (t : Task) : Bool :=
  decide (t.status = TaskStatus.pending) && t.lockedAt.isNone &&
    (decide (minPriority = 0) || decide (minPriority ≤ t.priority)) &&
    (decide (maxPriority = 0) || decide (t.priority ≤ maxPriority))

/-- The rows the claim query may return.  The query is
`... ORDER BY priority ASC LIMIT 1 FOR UPDATE SKIP LOCKED`: rows locked by
another transaction (`locked`) are skipped, and the single returned row is
the first remaining eligible row in some priority-ascending order.  The query
has no secondary sort key, so every minimal-priority eligible unlocked row is
a possible result; `table` lists the rows in insertion order. -/
def claimCandidates (locked : List Nat) (minPriority maxPriority : Int)
    (table : List Task) : List Task :=
  let elig := table.filter fun t =>
    queryAdmits minPriority maxPriority t && !(decide (t.id ∈ locked))
  elig.filter fun t => elig.all fun u => decide (t.priority ≤ u.priority)

/-- One possible resolution of the claim query's tie nondeterminism, used to
make the worker pipeline a function. -/
def claimOne (locked : List Nat) (minPriority maxPriority : Int)
    (table : List Task) : Option Task :=
  (claimCandidates locked minPriority maxPriority table).head?

/-- The row filter the worker actually runs under a configured environment
band `(MIN_PRIORITY, MAX_PRIORITY)`.  `main.go` passes the band positionally,
`ProcessTasks(..., MIN_PRIORITY, MAX_PRIORITY)`, into the parameter list
`(..., maxPriority int, minPriority int)`, so `MIN_PRIORITY` is bound to
`maxPriority` and `MAX_PRIORITY` to `minPriority`; the query then receives
`$1 := minPriority = MAX_PRIORITY` and `$2 := maxPriority = MIN_PRIORITY`. -/
def mainClaimAdmits (minPriorityEnv maxPriorityEnv : Int) (t : Task) : Bool :=
  queryAdmits maxPriorityEnv minPriorityEnv t

/-- Modelled from the spec's words, for comparison with `mainClaimAdmits`:
"priority is within the configured band (a zero band bound means unbounded on
that side)" — the inclusive band `[MIN_PRIORITY, MAX_PRIORITY]`. -/
def specBandAdmits (minPriorityEnv maxPriorityEnv p : Int) : Prop :=
  (minPriorityEnv = 0 ∨ minPriorityEnv ≤ p) ∧
    (maxPriorityEnv = 0 ∨ p ≤ maxPriorityEnv)

/-- A pending, unlocked row of priority 10 — the row on which the configured
band (0, 5) misbehaves. -/
def bandRow : Task :=
  ⟨1, "t", none, none, none, none, none, 10, TaskStatus.pending, "{}", "c",
    none, none⟩

/-- Earlier-inserted of two equal-priority pending unlocked rows. -/
def rowA : Task :=
  ⟨1, "a", none, none, none, none, none, 3, TaskStatus.pending, "{}", "c",
    none, none⟩

/-- Later-inserted of two equal-priority pending unlocked rows. -/
def rowB : Task :=
  ⟨2, "b", none, none, none, none, none, 3, TaskStatus.pending, "{}", "c",
    none, none⟩

/-- The counter block of `logging.StatusResponse`, the state mutated by
`WorkerStats.UpdateStats`.  The Go counters are `uint64` with wrapping
`+=`; the fields here are naturals, and the wrap is made explicit where it
matters: `UpdateStats` below is the unbounded-addition view, which agrees
with `uint64` exactly as long as no counter reaches `2^64` (the claims
stated through it only ever touch small concrete values), while
`UpdateStatsW`/`ProcessTasksW`/`runOpsW` carry the exact `mod 2^64`
semantics used for the counter-invariant analysis. -/
structure Stats where
  id : String
  startTime : Int
  processed : Nat
  successful : Nat
  failed : Nat
  databaseFailures : Nat
  current : Option Task
deriving DecidableEq, Repr

/-- `logging.WorkerStats.UpdateStats`: sets the id when the argument is
non-empty, adds each delta to its counter, and replaces the current-task
snapshot with the given value (including replacing it with `none`).  This
is the unbounded-addition view of the Go `uint64` `+=`; it coincides with
the wrapping semantics (`UpdateStatsW`) whenever the sums stay below
`2^64`. -/
def UpdateStats (s : Stats) (id : String)
    (processed success failed databaseFailures : Nat)
    (current : Option Task) : Stats :=
  { s with
    id := if id = "" then s.id else id
    processed := s.processed + processed
    successful := s.successful + success
    failed := s.failed + failed
    databaseFailures := s.databaseFailures + databaseFailures
    current := current }

/-- The zero value of `logging.WorkerStats` (`var workerstats WorkerStats`
in `main.go`). -/
def statsZero : Stats :=
  ⟨"", 0, 0, 0, 0, 0, none⟩

/-- The two error shapes `ExecuteTaskInDocker` can return: the worker's
context error on cancellation, or a docker-side runtime error. -/
inductive ExecErr where
  | cancelledCtx (msg : String)
  | runtime (msg : String)
deriving DecidableEq, Repr

/-- The message carried by an `ExecuteTaskInDocker` error
(`execErr.Error()` in the worker). -/
def ExecErr.message : ExecErr → String
  | .cancelledCtx m => m
  | .runtime m => m

/-- Oracle for the docker-side effects of one `ExecuteTaskInDocker` call.
Each field is the outcome of one fallible step of the source, in source
order: `GetOrCreateContainer` (bring-up or reuse+sanitise), tar copy, exec
create, exec attach, the select between `ctx.Done()` and the output reader,
the `stdcopy` read, `ContainerExecInspect`, and the script's exit code and
captured streams.  (The in-memory tar header writes of the source cannot
fail and are omitted.) -/
structure ExecWorld where
  bringUpErr : Option String
  copyErr : Option String
  execCreateErr : Option String
  attachErr : Option String
  cancelledDuringWait : Bool
  readErr : Option String
  inspectErr : Option String
  exitCode : Int
  stdout : String
  stderr : String
deriving DecidableEq, Repr

/-- Result of `ExecuteTaskInDocker`: the returned string, the returned error,
and whether the trailing `lastUsedAt = time.Now()` write ran. -/
structure ExecOutcome where
  output : String
  err : Option ExecErr
  timestampUpdated : Bool
deriving DecidableEq, Repr

/-- `containerization.ExecuteTaskInDocker`, control flow from the source.
Note the exit-code branch: after a successful inspect the local `err` is
nil, and the source's `if inspect.ExitCode != 0 { ...; return stdout.String(), err }`
therefore returns a nil error; the branch also skips the timestamp write. -/
def ExecuteTaskInDocker (w : ExecWorld) : ExecOutcome :=
  match w.bringUpErr with
  | some e => ⟨"", some (ExecErr.runtime e), false⟩
  | none =>
    match w.copyErr with
    | some e => ⟨"", some (ExecErr.runtime e), false⟩
    | none =>
      match w.execCreateErr with
      | some e => ⟨"", some (ExecErr.runtime e), false⟩
      | none =>
        match w.attachErr with
        | some e => ⟨"", some (ExecErr.runtime e), false⟩
        | none =>
          if w.cancelledDuringWait then
            ⟨"", some (ExecErr.cancelledCtx "context canceled"), false⟩
          else
            match w.readErr with
            | some e => ⟨"", some (ExecErr.runtime e), false⟩
            | none =>
              match w.inspectErr with
              | some e => ⟨w.stdout, some (ExecErr.runtime e), false⟩
              | none =>
                if w.exitCode ≠ 0 then ⟨w.stdout, none, false⟩
                else ⟨w.stdout, none, true⟩

/-- Observable result of one attempt of the worker's retry loop: the pair
returned by `ExecuteTaskInDocker`, plus what the worker's two cancellation
observation points see after a failed attempt (`ctx.Err() != nil`, and the
backoff `select` between `ctx.Done()` and the 2-second timer). -/
structure Attempt where
  output : String
  err : Option String
  cancelledAtCheck : Bool
  cancelledInBackoff : Bool

/-- Events the worker emits towards the sandbox during one cycle: an
`ExecuteTaskInDocker` invocation, or a completed 2-second backoff sleep. -/
inductive Ev where
  | execCall
  | backoff
deriving DecidableEq, Repr

/-- How the retry loop ended: success with the captured output, an early
return on observed cancellation, or exhaustion with the last error. -/
inductive RetryOut where
  | success (output : String)
  | cancelledRet
  | exhausted (lastErr : String)
deriving DecidableEq, Repr

/-- The retry loop of `ProcessTasks`
(`for i := 0; i < maxRetries; i++` with `maxRetries = 3`): run one attempt;
on success break; on failure return early if cancellation is observed at the
`ctx.Err()` check or in the backoff select, otherwise sleep 2 seconds and
retry.  `lastErr` threads the Go `execErr` variable across iterations;
leaving the loop with fuel exhausted yields the last attempt's error. -/
def retryLoop (att : Nat → Attempt) (lastErr : String) (i fuel : Nat) :
    RetryOut × List Ev :=
  match fuel with
  | 0 => (RetryOut.exhausted lastErr, [])
  | fuel' + 1 =>
    let a := att i
    match a.err with
    | none => (RetryOut.success a.output, [Ev.execCall])
    | some e =>
      if a.cancelledAtCheck then (RetryOut.cancelledRet, [Ev.execCall])
      else if a.cancelledInBackoff then (RetryOut.cancelledRet, [Ev.execCall])
      else
        let rest := retryLoop att e (i + 1) fuel'
        (rest.1, Ev.execCall :: Ev.backoff :: rest.2)

/-- The claim transaction's second update:
`UPDATE TASKS SET LOCKED_AT = NOW(), WORKER_ID = $1, STARTED = $2,
STATUS = 'running' WHERE ID = $4`. -/
def markRunning (now : Int) (workerID : String) (id : Nat)
    (table : List Task) : List Task :=
  table.map fun t =>
    if t.id = id then
      { t with
        lockedAt := some now
        workerId := some workerID
        started := some now
        status := TaskStatus.running }
    else t

/-- `UPDATE TASKS SET STATUS = 'malicious' WHERE ID = $2` — only the status
column is written. -/
def markMalicious (id : Nat) (table : List Task) : List Task :=
  table.map fun t =>
    if t.id = id then { t with status := TaskStatus.malicious } else t

/-- `UPDATE TASKS SET FINISHED = NOW(), STATUS = 'failed',
LAST_ERROR = $2 WHERE ID = $3`. -/
def markFailed (now : Int) (msg : String) (id : Nat)
    (table : List Task) : List Task :=
  table.map fun t =>
    if t.id = id then
      { t with
        finished := some now
        status := TaskStatus.failed
        lastError := some msg }
    else t

/-- `UPDATE TASKS SET FINISHED = NOW(), STATUS = 'completed',
OUTPUT = $2 WHERE ID = $3`. -/
def markCompleted (now : Int) (out : String) (id : Nat)
    (table : List Task) : List Task :=
  table.map fun t =>
    if t.id = id then
      { t with
        finished := some now
        status := TaskStatus.completed
        output := some out }
    else t

/-- Oracle for the fallible steps of one `ProcessTasks` cycle, in source
order: transaction begin, the claim query erroring (other than no-rows),
the set of row ids locked by other transactions, the `CODES` lookup, the
`AnalyzeCode` call (whose body lives outside this repository; only its
`(bool, error)` result matters to the worker), the two statements of the
malicious branch, the two statements of the running transition, one
`Attempt` per retry iteration, and the final mark-failed / mark-completed
statements. -/
structure Env where
  beginErr : Bool
  queryErr : Bool
  locked : List Nat
  codeFetch : Except String String
  analyze : Except String Bool
  malUpdateErr : Bool
  malCommitErr : Bool
  runUpdateErr : Bool
  runCommitErr : Bool
  att : Nat → Attempt
  failUpdateErr : Bool
  completeUpdateErr : Bool

/-- Result of one `ProcessTasks` cycle: the task table, the worker stats,
and the sandbox-facing event trace. -/
structure PTResult where
  table : List Task
  stats : Stats
  events : List Ev
deriving DecidableEq, Repr

/-- `processor.ProcessTasks`, the claim-and-process cycle, faithful to the
source's control flow.  The parameter order `(maxPriority, minPriority)`
mirrors the Go signature; the query receives `$1 := minPriority`,
`$2 := maxPriority`.  (The source's claim SELECT omits the `priority` and
`output` columns from the scanned struct; the scanned row is only ever used
for its id, payload and resolved code downstream, so the full row is carried
here.)  On the happy path the scanned task's `code` field is overwritten
with the resolved script — the aliasing the spec notes. -/
def ProcessTasks (env : Env) (now : Int) (workerID : String)
    (maxPriority minPriority : Int) (table : List Task) (stats : Stats) :
    PTResult :=
  if env.beginErr then ⟨table, stats, []⟩
  else if env.queryErr then ⟨table, stats, []⟩
  else
    match claimOne env.locked minPriority maxPriority table with
    | none => ⟨table, stats, []⟩
    | some task =>
      match env.codeFetch with
      | Except.error _ => ⟨table, stats, []⟩
      | Except.ok script =>
        match env.analyze with
        | Except.error _ => ⟨table, stats, []⟩
        | Except.ok true =>
          if env.malUpdateErr then ⟨table, UpdateStats stats "" 0 0 0 1 none, []⟩
          else if env.malCommitErr then ⟨table, UpdateStats stats "" 0 0 0 1 none, []⟩
          else ⟨markMalicious task.id table, stats, []⟩
        | Except.ok false =>
          if env.runUpdateErr then ⟨table, UpdateStats stats "" 0 0 0 1 none, []⟩
          else if env.runCommitErr then ⟨table, UpdateStats stats "" 0 0 0 1 none, []⟩
          else
            let table1 := markRunning now workerID task.id table
            let runningTask :=
              { task with
                code := script
                started := some now
                status := TaskStatus.running }
            let stats1 := UpdateStats stats "" 1 0 0 0 (some runningTask)
            match retryLoop env.att "" 0 3 with
            | (RetryOut.cancelledRet, evs) => ⟨table1, stats1, evs⟩
            | (RetryOut.success out, evs) =>
              if env.completeUpdateErr then
                ⟨table1,
                  UpdateStats (UpdateStats stats1 "" 0 0 0 1 none) "" 0 1 0 0 none,
                  evs⟩
              else
                ⟨markCompleted now out task.id table1,
                  UpdateStats stats1 "" 0 1 0 0 none, evs⟩
            | (RetryOut.exhausted lastErr, evs) =>
              if env.failUpdateErr then
                ⟨table1,
                  UpdateStats (UpdateStats stats1 "" 0 0 0 1 none) "" 0 0 1 0 none,
                  evs⟩
              else
                ⟨markFailed now lastErr task.id table1,
                  UpdateStats stats1 "" 0 0 1 0 none, evs⟩

/-- The exec world of C1's failing input: container ready, copy and exec
succeed, the script exits with code 1 having printed `partial` on stdout and
`boom` on stderr. -/
def nzWorld : ExecWorld :=
  ⟨none, none, none, none, false, none, none, 1, "partial", "boom"⟩

/-- The attempt the worker observes from `nzWorld`: the returned output and
error of `ExecuteTaskInDocker`, with no cancellation signalled. -/
def nzAttempt : Attempt :=
  ⟨(ExecuteTaskInDocker nzWorld).output,
    ((ExecuteTaskInDocker nzWorld).err).map ExecErr.message, false, false⟩

/-- The pending row whose script exits non-zero. -/
def nzRow : Task :=
  ⟨7, "nz", none, none, none, none, none, 0, TaskStatus.pending, "{}", "c",
    none, none⟩

/-- The cycle environment around C1's failing input: clean claim, clean code
resolution, benign screening, clean store updates, and every sandbox attempt
yielding the non-zero-exit outcome. -/
def nzEnv : Env :=
  ⟨false, false, [], Except.ok "script-text", Except.ok false, false, false,
    false, false, fun _ => nzAttempt, false, false⟩

/-- The malicious-script row used to instantiate C9. -/
def malRow : Task :=
  ⟨3, "mal", none, none, none, none, none, 0, TaskStatus.pending, "{}", "c",
    none, none⟩

/-- The cycle environment used to instantiate C9: clean claim, clean code
resolution, and a screener verdict of malicious. -/
def malEnv : Env :=
  ⟨false, false, [], Except.ok "evil", Except.ok true, false, false,
    false, false, fun _ => ⟨"", none, false, false⟩, false, false⟩

/-- The exec world used to instantiate C6: healthy container, cancellation
observed while waiting for the exec's output. -/
def cancelWorld : ExecWorld :=
  ⟨none, none, none, none, true, none, none, 0, "", ""⟩

/-- The cycle environment used to instantiate C6: the first attempt fails
with the context error and the `ctx.Err()` check observes cancellation. -/
def cancelEnv : Env :=
  ⟨false, false, [], Except.ok "slow", Except.ok false, false, false, false,
    false, fun _ => ⟨"", some "context canceled", true, false⟩, false, false⟩

/-- The pending row used to instantiate C6. -/
def cancelRow : Task :=
  ⟨4, "c", none, none, none, none, none, 0, TaskStatus.pending, "{}", "c",
    none, none⟩

/-- The cycle environment used to instantiate C5: every attempt fails with a
distinct sandbox error and no cancellation is ever observed. -/
def exhaustEnv : Env :=
  ⟨false, false, [], Except.ok "crashy", Except.ok false, false, false, false,
    false,
    fun i => ⟨"", some (String.append "fault " (toString i)), false, false⟩,
    false, false⟩

/-- The pending row used to instantiate C5. -/
def exhaustRow : Task :=
  ⟨5, "x", none, none, none, none, none, 0, TaskStatus.pending, "{}", "c",
    none, none⟩

/-- The two store-facing calls the `main.go` event loop can make. -/
inductive LoopCall where
  | recoverCall
  | processCall
deriving DecidableEq, Repr

/-- The wake events of the worker loop in `main.go`: the initial pass before
the `for/select` loop, a fallback `ticker.C` tick, and a `listener.Notify`
notification. -/
inductive Wake where
  | startup
  | tick
  | notify
deriving DecidableEq, Repr

/-- The calls `main.go` makes on each wake, in program order.  The initial
pass runs `RecoverTasks` then `ProcessTasks`; the `listener.Notify` branch
runs `RecoverTasks` then `ProcessTasks`; the `ticker.C` branch runs only
`ProcessTasks`. -/
def wakeCalls : Wake → List LoopCall
  | Wake.startup => [LoopCall.recoverCall, LoopCall.processCall]
  | Wake.tick => [LoopCall.processCall]
  | Wake.notify => [LoopCall.recoverCall, LoopCall.processCall]

/-- Worker-visible state evolved by the loop: the task table and the stats. -/
structure WState where
  table : List Task
  stats : Stats
deriving DecidableEq, Repr

/-- One store-facing operation of the worker loop, with its effect oracle. -/
inductive LoopOp where
  | recoverOp (dbErr : Bool) (now : Int)
  | processOp (env : Env) (now : Int) (workerID : String)
      (maxPriority minPriority : Int)

/-- `processor.RecoverTasks` including its stats side effect: on a database
error the worker bumps `database_failures` (clearing the current-task
snapshot); otherwise the table is rewritten and the count is only logged. -/
def recoverStep (dbErr : Bool) (now : Int) (s : WState) : WState :=
  if dbErr then ⟨s.table, UpdateStats s.stats "" 0 0 0 1 none⟩
  else ⟨(RecoverTasks now s.table).1, s.stats⟩

/-- Apply one loop operation to the worker state. -/
def stepOp : LoopOp → WState → WState
  | LoopOp.recoverOp e now, s => recoverStep e now s
  | LoopOp.processOp env now wid maxP minP, s =>
    let r := ProcessTasks env now wid maxP minP s.table s.stats
    ⟨r.table, r.stats⟩

/-- Run a sequence of loop operations. -/
def runOps (ops : List LoopOp) (s : WState) : WState :=
  ops.foldl (fun s op => stepOp op s) s

/-- The state at worker startup: the stats zero value receives
`UpdateStats(workerID, 0, 0, 0, 0, nil)` in `main.go`. -/
def startState (workerID : String) (table : List Task) : WState :=
  ⟨table, UpdateStats statsZero workerID 0 0 0 0 none⟩

/-- The C10 counter invariant: finalisations never outnumber cycle starts. -/
def statsInv (s : Stats) : Prop :=
  s.successful + s.failed ≤ s.processed

/-- The modulus of the Go `uint64` counter arithmetic. -/
def uint64Mod : Nat :=
  2 ^ 64

/-- Reduce the four counters modulo `2^64`; the bridge between the
unbounded-addition view of the stats and the exact wrapping one. -/
def wrapS (s : Stats) : Stats :=
  { s with
    processed := s.processed % uint64Mod
    successful := s.successful % uint64Mod
    failed := s.failed % uint64Mod
    databaseFailures := s.databaseFailures % uint64Mod }

/-- `logging.WorkerStats.UpdateStats` with the Go `uint64` wrapping made
explicit: each counter `+=` is addition modulo `2^64`. -/
def UpdateStatsW (s : Stats) (id : String)
    (processed success failed databaseFailures : Nat)
    (current : Option Task) : Stats :=
  { s with
    id := if id = "" then s.id else id
    processed := (s.processed + processed) % uint64Mod
    successful := (s.successful + success) % uint64Mod
    failed := (s.failed + failed) % uint64Mod
    databaseFailures := (s.databaseFailures + databaseFailures) % uint64Mod
    current := current }

/-- `processor.ProcessTasks` with the `uint64` wrapping of the Go counters
made explicit: identical to `ProcessTasks` (same source control flow, which
never reads the stats) with every `UpdateStats` call replaced by its
wrapping counterpart `UpdateStatsW`. -/
def ProcessTasksW (env : Env) (now : Int) (workerID : String)
    (maxPriority minPriority : Int) (table : List Task) (stats : Stats) :
    PTResult :=
  if env.beginErr then ⟨table, stats, []⟩
  else if env.queryErr then ⟨table, stats, []⟩
  else
    match claimOne env.locked minPriority maxPriority table with
    | none => ⟨table, stats, []⟩
    | some task =>
      match env.codeFetch with
      | Except.error _ => ⟨table, stats, []⟩
      | Except.ok script =>
        match env.analyze with
        | Except.error _ => ⟨table, stats, []⟩
        | Except.ok true =>
          if env.malUpdateErr then ⟨table, UpdateStatsW stats "" 0 0 0 1 none, []⟩
          else if env.malCommitErr then ⟨table, UpdateStatsW stats "" 0 0 0 1 none, []⟩
          else ⟨markMalicious task.id table, stats, []⟩
        | Except.ok false =>
          if env.runUpdateErr then ⟨table, UpdateStatsW stats "" 0 0 0 1 none, []⟩
          else if env.runCommitErr then ⟨table, UpdateStatsW stats "" 0 0 0 1 none, []⟩
          else
            let table1 := markRunning now workerID task.id table
            let runningTask :=
              { task with
                code := script
                started := some now
                status := TaskStatus.running }
            let stats1 := UpdateStatsW stats "" 1 0 0 0 (some runningTask)
            match retryLoop env.att "" 0 3 with
            | (RetryOut.cancelledRet, evs) => ⟨table1, stats1, evs⟩
            | (RetryOut.success out, evs) =>
              if env.completeUpdateErr then
                ⟨table1,
                  UpdateStatsW (UpdateStatsW stats1 "" 0 0 0 1 none) "" 0 1 0 0 none,
                  evs⟩
              else
                ⟨markCompleted now out task.id table1,
                  UpdateStatsW stats1 "" 0 1 0 0 none, evs⟩
            | (RetryOut.exhausted lastErr, evs) =>
              if env.failUpdateErr then
                ⟨table1,
                  UpdateStatsW (UpdateStatsW stats1 "" 0 0 0 1 none) "" 0 0 1 0 none,
                  evs⟩
              else
                ⟨markFailed now lastErr task.id table1,
                  UpdateStatsW stats1 "" 0 0 1 0 none, evs⟩

/-- `recoverStep` with the wrapping counter semantics. -/
def recoverStepW (dbErr : Bool) (now : Int) (s : WState) : WState :=
  if dbErr then ⟨s.table, UpdateStatsW s.stats "" 0 0 0 1 none⟩
  else ⟨(RecoverTasks now s.table).1, s.stats⟩

/-- `stepOp` with the wrapping counter semantics. -/
def stepOpW : LoopOp → WState → WState
  | LoopOp.recoverOp e now, s => recoverStepW e now s
  | LoopOp.processOp env now wid maxP minP, s =>
    let r := ProcessTasksW env now wid maxP minP s.table s.stats
    ⟨r.table, r.stats⟩

/-- `runOps` with the wrapping counter semantics. -/
def runOpsW (ops : List LoopOp) (s : WState) : WState :=
  ops.foldl (fun s op => stepOpW op s) s

/-- The startup state under the wrapping counter semantics. -/
def startStateW (workerID : String) (table : List Task) : WState :=
  ⟨table, UpdateStatsW statsZero workerID 0 0 0 0 none⟩

/-- The stats state just below the `uint64` wrap point of
`tasks_processed`. -/
def nearWrapStats : Stats :=
  ⟨"", 0, uint64Mod - 1, 0, 0, 0, none⟩

/-- A running row locked two hours ago — stale at `now = 10000`. -/
def staleRow : Task :=
  ⟨11, "s", none, some 0, none, some 0, none, 0, TaskStatus.running, "{}",
    "c", some "ghost", none⟩

/-- A running row locked recently — not stale at `now = 10000`. -/
def freshRow : Task :=
  ⟨12, "f", none, some 9000, none, some 9000, none, 0, TaskStatus.running,
    "{}", "c", some "w", none⟩

/-- C2: the code violates the band claim.  Under the configured band
(MIN_PRIORITY, MAX_PRIORITY) = (0, 5) the worker admits — and the claim query
selects — a pending unlocked row of priority 10, although 10 is outside the
inclusive band [unbounded, 5]: the call site swaps the two bounds.  The two
boundary sub-claims, band (0, 0) admitting everything and band (5, 5)
admitting exactly priority 5, do survive the swap. -/
theorem priority_band_swapped_bug :
    mainClaimAdmits 0 5 bandRow = true ∧
      ¬ specBandAdmits 0 5 bandRow.priority ∧
      claimOne [] 5 0 [bandRow] = some bandRow ∧
      mainClaimAdmits 0 0 bandRow = true ∧
      mainClaimAdmits 5 5 { bandRow with priority := 5 } = true ∧
      mainClaimAdmits 5 5 bandRow = false := by
  refine ⟨rfl, ?_, rfl, rfl, rfl, rfl⟩
  intro h
  rcases h.2 with h2 | h2 <;> revert h2 <;> decide

/-- Bits of `b` survive in `a ||| b`, hence `b` is a lower bound of the OR. -/
theorem right_le_lor (a b : Nat) : b ≤ a ||| b := by
  induction a using Nat.binaryRec generalizing b with
  | z => simp
  | f c a ih =>
    induction b using Nat.binaryRec with
    | z => exact Nat.zero_le _
    | f d b _ =>
      rw [Nat.lor_bit]
      have h := ih b
      have hd : d.toNat ≤ (c || d).toNat := by cases c <;> cases d <;> simp
      simp only [Nat.bit_val]
      omega

/-- C8: For every configured non-negative integer POLLING_INTERVAL, the
effective fallback ticker interval in seconds is at least 5, and a configured
value of 0 yields an effective interval of exactly 5 seconds.  (The source
computes `POLLING_INTERVAL | 5`, a bitwise OR, which always contains the bits
of 5 and equals 5 at 0.) -/
theorem polling_interval_floor_clamped (pollingInterval : Nat) :
    5 ≤ effectivePollingInterval pollingInterval ∧
      effectivePollingInterval 0 = 5 := by
  exact ⟨right_le_lor pollingInterval 5, rfl⟩

/-- A row just rewritten by the recovery pass is no longer stale: its status
is `failed`, not `running`. -/
theorem isStale_recoverRow (now : Int) (t : Task) :
    isStale now (recoverRow now t) = false := by
  simp [isStale, recoverRow]

/-- Applying the recovery pass at timestamp `now` leaves every row of the
result non-stale at that same timestamp. -/
theorem recover_result_not_stale (now : Int) (table : List Task) :
    ∀ t ∈ (RecoverTasks now table).1, isStale now t = false := by
  induction table with
  | nil => intro t h; simp [RecoverTasks] at h
  | cons hd tl ih =>
    intro t h
    by_cases hs : isStale now hd = true
    · simp only [RecoverTasks, hs, if_pos] at h
      rcases List.mem_cons.mp h with h1 | h1
      · subst h1; exact isStale_recoverRow now hd
      · exact ih t h1
    · simp only [RecoverTasks, hs, if_neg, Bool.not_eq_true] at h
      rcases List.mem_cons.mp h with h1 | h1
      · subst h1; exact Bool.not_eq_true _ ▸ (by simpa using hs)
      · exact ih t h1

/-- On a table with no stale row, the recovery pass changes nothing and
reports zero affected rows. -/
theorem recover_noop_of_not_stale (now : Int) (table : List Task)
    (h : ∀ t ∈ table, isStale now t = false) :
    RecoverTasks now table = (table, 0) := by
  induction table with
  | nil => rfl
  | cons hd tl ih =>
    have hhd : isStale now hd = false := h hd (List.mem_cons_self _ _)
    have htl := ih (fun t ht => h t (List.mem_cons_of_mem _ ht))
    simp [RecoverTasks, hhd, htl]

/-- C7: `recover_stale` transitions every row with status `running` and
`locked_at` older than one hour to status `failed` with `finished` set to the
current time and the diagnostic `last_error`, leaves every other row
untouched, and returns the number of rows recovered; a second application at
the same instant with no interleaving writes changes no rows and returns 0. -/
theorem recover_stale_correct (now : Int) (table : List Task) :
    List.Forall₂ (fun t t' =>
        (isStale now t = true →
          t' = recoverRow now t ∧ t'.status = TaskStatus.failed ∧
            t'.finished = some now ∧
            t'.lastError = some "Timeout/Worker Crash (1h limit)") ∧
        (isStale now t = false → t' = t))
      table (RecoverTasks now table).1 ∧
    (RecoverTasks now table).2 = (table.filter (isStale now)).length ∧
    RecoverTasks now (RecoverTasks now table).1 = ((RecoverTasks now table).1, 0) := by
  refine ⟨?_, ?_, recover_noop_of_not_stale now _ (recover_result_not_stale now table)⟩
  · induction table with
    | nil => exact List.Forall₂.nil
    | cons hd tl ih =>
      by_cases hs : isStale now hd = true
      · simp only [RecoverTasks, hs, if_pos]
        exact List.Forall₂.cons
          ⟨fun _ => ⟨rfl, rfl, rfl, rfl⟩, fun hc => by rw [hs] at hc; cases hc⟩ ih
      · simp only [RecoverTasks, hs, if_neg, Bool.not_eq_true]
        exact List.Forall₂.cons
          ⟨fun hc => by rw [hc] at hs; exact absurd rfl hs, fun _ => rfl⟩ ih
  · induction table with
    | nil => rfl
    | cons hd tl ih =>
      by_cases hs : isStale now hd = true <;>
        simp [RecoverTasks, hs, ih, List.filter]

/-- C4 counterexample: with two eligible rows of equal priority, the claim
query — which orders by `priority` only, with no secondary sort key — may
return the later-inserted row, so insertion-order tie-breaking is not
guaranteed. -/
theorem claim_tie_break_counterexample :
    rowB ∈ claimCandidates [] 0 0 [rowA, rowB] ∧ rowA.id < rowB.id ∧
      rowA.priority = rowB.priority ∧ rowB ≠ rowA := by
  refine ⟨by decide, by decide, by decide, by decide⟩

/-- C4 (amended): every row the claim operation may select satisfies the
query filter (pending, unlocked, within the priority arguments), is not
locked by another transaction, comes from the table, and has minimal
priority among the eligible unlocked rows; ties between equal-priority rows
are broken arbitrarily, not necessarily by insertion order, because the
query has no secondary sort key. -/
theorem claim_selects_minimal_priority (locked : List Nat)
    (minPriority maxPriority : Int) (table : List Task) (t : Task)
    (ht : t ∈ claimCandidates locked minPriority maxPriority table) :
    queryAdmits minPriority maxPriority t = true ∧ t.id ∉ locked ∧
      t ∈ table ∧
      ∀ u ∈ table, queryAdmits minPriority maxPriority u = true →
        u.id ∉ locked → t.priority ≤ u.priority := by
  unfold claimCandidates at ht
  obtain ⟨helig, hall⟩ := List.mem_filter.mp ht
  obtain ⟨htab, hpred⟩ := List.mem_filter.mp helig
  rw [Bool.and_eq_true] at hpred
  obtain ⟨hadm, hnl⟩ := hpred
  have hlock : t.id ∉ locked := by
    rw [Bool.not_eq_true', decide_eq_false_iff_not] at hnl
    exact hnl
  refine ⟨hadm, hlock, htab, fun u hu hq hl => ?_⟩
  have humem : u ∈ List.filter (fun t =>
      queryAdmits minPriority maxPriority t && !(decide (t.id ∈ locked))) table := by
    refine List.mem_filter.mpr ⟨hu, ?_⟩
    rw [Bool.and_eq_true, hq, Bool.not_eq_true', decide_eq_false_iff_not]
    exact ⟨rfl, hl⟩
  have := List.all_eq_true.mp hall u humem
  exact decide_eq_true_eq.mp this

/-- C4 witness: the amended selection theorem instantiated on the concrete
two-row table, with the membership hypothesis discharged by evaluation. -/
theorem claim_selects_minimal_priority_witness :
    queryAdmits 0 0 rowA = true ∧ rowA.id ∉ ([] : List Nat) ∧
      rowA ∈ [rowA, rowB] ∧
      ∀ u ∈ [rowA, rowB], queryAdmits 0 0 u = true →
        u.id ∉ ([] : List Nat) → rowA.priority ≤ u.priority :=
  claim_selects_minimal_priority [] 0 0 [rowA, rowB] rowA (by decide)

/-- Every row of `markRunning`'s result carrying the updated id has status
`running`. -/
theorem markRunning_status (now : Int) (workerID : String) (id : Nat)
    (table : List Task) :
    ∀ t ∈ markRunning now workerID id table,
      t.id = id → t.status = TaskStatus.running := by
  intro t ht hid
  obtain ⟨s, hs, hfs⟩ := List.mem_map.mp ht
  by_cases h : s.id = id
  · rw [if_pos h] at hfs; rw [← hfs]
  · rw [if_neg h] at hfs; rw [← hfs] at hid; exact absurd hid h

/-- Every row of `markFailed`'s result carrying the updated id has status
`failed` and the given error message. -/
theorem markFailed_status (now : Int) (msg : String) (id : Nat)
    (table : List Task) :
    ∀ t ∈ markFailed now msg id table,
      t.id = id →
        t.status = TaskStatus.failed ∧ t.lastError = some msg ∧
          t.finished = some now := by
  intro t ht hid
  obtain ⟨s, hs, hfs⟩ := List.mem_map.mp ht
  by_cases h : s.id = id
  · rw [if_pos h] at hfs; rw [← hfs]; exact ⟨rfl, rfl, rfl⟩
  · rw [if_neg h] at hfs; rw [← hfs] at hid; exact absurd hid h

/-- Row-wise description of `markMalicious`: ids are preserved, the output
column is untouched everywhere, the matching row gets status `malicious`,
and every other row is unchanged. -/
theorem markMalicious_rowwise (id : Nat) (table : List Task) :
    List.Forall₂ (fun t t' =>
        t'.id = t.id ∧ t'.output = t.output ∧
          (t.id = id → t'.status = TaskStatus.malicious) ∧
          (t.id ≠ id → t' = t))
      table (markMalicious id table) := by
  induction table with
  | nil => exact List.Forall₂.nil
  | cons hd tl ih =>
    by_cases h : hd.id = id
    · have hstep : markMalicious id (hd :: tl) =
          { hd with status := TaskStatus.malicious } :: markMalicious id tl := by
        simp [markMalicious, h]
      rw [hstep]
      exact List.Forall₂.cons ⟨rfl, rfl, fun _ => rfl, fun hne => absurd h hne⟩ ih
    · have hstep : markMalicious id (hd :: tl) = hd :: markMalicious id tl := by
        simp [markMalicious, h]
      rw [hstep]
      exact List.Forall₂.cons ⟨rfl, rfl, fun he => absurd he h, fun _ => rfl⟩ ih

/-- C1: the code violates the claim.  On a script that exits with code 1,
`ExecuteTaskInDocker` returns the captured stdout together with a NIL error
(after a successful inspect the local `err` is nil and the non-zero-exit
branch returns it), so the worker marks the task `completed` with `output`
set to the stdout and bumps `tasks_successful` — the task never reaches
`failed` and no error carrying the exit code is surfaced. -/
theorem nonzero_exit_reported_as_success :
    ExecuteTaskInDocker nzWorld =
        ⟨"partial", none, false⟩ ∧
      (ProcessTasks nzEnv 100 "w" 0 0 [nzRow] statsZero).table =
        [{ nzRow with
            lockedAt := some 100
            workerId := some "w"
            started := some 100
            finished := some 100
            status := TaskStatus.completed
            output := some "partial" }] ∧
      (ProcessTasks nzEnv 100 "w" 0 0 [nzRow] statsZero).stats.successful = 1 ∧
      (ProcessTasks nzEnv 100 "w" 0 0 [nzRow] statsZero).stats.failed = 0 := by
  refine ⟨by decide, by decide, by decide, by decide⟩

/-- C9: a claimed task whose script the screener classifies as malicious is
moved to terminal status `malicious` by the claim transaction itself: the
update writes only the status column (no `output` is recorded), the worker
stats are untouched, and the sandbox event trace is empty — the container
runtime is never invoked (no bring-up, copy, or execute happens outside
`Ev.execCall` events). -/
theorem malicious_short_circuit (env : Env) (now : Int) (workerID : String)
    (maxPriority minPriority : Int) (table : List Task) (stats : Stats)
    (task : Task) (script : String)
    (hb : env.beginErr = false) (hq : env.queryErr = false)
    (hclaim : claimOne env.locked minPriority maxPriority table = some task)
    (hcode : env.codeFetch = Except.ok script)
    (hmal : env.analyze = Except.ok true)
    (hu : env.malUpdateErr = false) (hc : env.malCommitErr = false) :
    ProcessTasks env now workerID maxPriority minPriority table stats =
        ⟨markMalicious task.id table, stats, []⟩ ∧
      List.Forall₂ (fun t t' =>
          t'.id = t.id ∧ t'.output = t.output ∧
            (t.id = task.id → t'.status = TaskStatus.malicious) ∧
            (t.id ≠ task.id → t' = t))
        table
        (ProcessTasks env now workerID maxPriority minPriority table stats).table ∧
      (ProcessTasks env now workerID maxPriority minPriority table stats).events
        = [] := by
  have hres : ProcessTasks env now workerID maxPriority minPriority table stats =
      ⟨markMalicious task.id table, stats, []⟩ := by
    unfold ProcessTasks
    rw [hb, hq, hclaim, hcode, hmal, hu, hc]
    simp
  refine ⟨hres, ?_, by rw [hres]⟩
  rw [hres]
  exact markMalicious_rowwise task.id table

/-- C9 witness: the short-circuit theorem instantiated on a concrete one-row
table, all hypotheses discharged by evaluation. -/
theorem malicious_short_circuit_witness :
    ProcessTasks malEnv 50 "w" 0 0 [malRow] statsZero =
        ⟨markMalicious malRow.id [malRow], statsZero, []⟩ ∧
      List.Forall₂ (fun t t' =>
          t'.id = t.id ∧ t'.output = t.output ∧
            (t.id = malRow.id → t'.status = TaskStatus.malicious) ∧
            (t.id ≠ malRow.id → t' = t))
        [malRow] (ProcessTasks malEnv 50 "w" 0 0 [malRow] statsZero).table ∧
      (ProcessTasks malEnv 50 "w" 0 0 [malRow] statsZero).events = [] :=
  malicious_short_circuit malEnv 50 "w" 0 0 [malRow] statsZero malRow "evil"
    rfl rfl (by decide) rfl rfl rfl rfl

/-- C6: when cancellation is signalled during the execution phase, the
cycle performs no further task-store updates — the table keeps exactly the
running transition of the claim, so the task stays `running` for the
stale-recovery pass, and the stats keep only the `tasks_processed` bump —
and `ExecuteTaskInDocker`, observing cancellation while waiting for the
exec's output, returns a cancellation error with empty output and without
running the trailing last-used-timestamp update. -/
theorem cancellation_no_further_updates
    (w : ExecWorld) (env : Env) (now : Int) (workerID : String)
    (maxPriority minPriority : Int) (table : List Task) (stats : Stats)
    (task : Task) (script : String)
    (hw1 : w.bringUpErr = none) (hw2 : w.copyErr = none)
    (hw3 : w.execCreateErr = none) (hw4 : w.attachErr = none)
    (hw5 : w.cancelledDuringWait = true)
    (hb : env.beginErr = false) (hq : env.queryErr = false)
    (hclaim : claimOne env.locked minPriority maxPriority table = some task)
    (hcode : env.codeFetch = Except.ok script)
    (hben : env.analyze = Except.ok false)
    (hru : env.runUpdateErr = false) (hrc : env.runCommitErr = false)
    (hcancel : (retryLoop env.att "" 0 3).1 = RetryOut.cancelledRet) :
    ExecuteTaskInDocker w =
        ⟨"", some (ExecErr.cancelledCtx "context canceled"), false⟩ ∧
      (ExecuteTaskInDocker w).timestampUpdated = false ∧
      (ProcessTasks env now workerID maxPriority minPriority table stats).table
        = markRunning now workerID task.id table ∧
      (∀ t ∈ (ProcessTasks env now workerID maxPriority minPriority table
          stats).table, t.id = task.id → t.status = TaskStatus.running) ∧
      (ProcessTasks env now workerID maxPriority minPriority table stats).stats
        = UpdateStats stats "" 1 0 0 0
            (some { task with
              code := script
              started := some now
              status := TaskStatus.running }) := by
  have hexec : ExecuteTaskInDocker w =
      ⟨"", some (ExecErr.cancelledCtx "context canceled"), false⟩ := by
    unfold ExecuteTaskInDocker
    rw [hw1, hw2, hw3, hw4, hw5]
    simp
  have hres : ProcessTasks env now workerID maxPriority minPriority table stats
      = ⟨markRunning now workerID task.id table,
          UpdateStats stats "" 1 0 0 0
            (some { task with
              code := script
              started := some now
              status := TaskStatus.running }),
          (retryLoop env.att "" 0 3).2⟩ := by
    unfold ProcessTasks
    rw [hb, hq, hclaim, hcode, hben, hru, hrc]
    rcases hval : retryLoop env.att "" 0 3 with ⟨o, evs⟩
    rw [hval] at hcancel
    simp only at hcancel
    subst hcancel
    simp
  refine ⟨hexec, by rw [hexec], by rw [hres], ?_, by rw [hres]⟩
  rw [hres]
  exact markRunning_status now workerID task.id table

/-- C6 witness: the cancellation theorem instantiated on a concrete one-row
table and exec world, all hypotheses discharged by evaluation. -/
theorem cancellation_no_further_updates_witness :
    ExecuteTaskInDocker cancelWorld =
        ⟨"", some (ExecErr.cancelledCtx "context canceled"), false⟩ ∧
      (ExecuteTaskInDocker cancelWorld).timestampUpdated = false ∧
      (ProcessTasks cancelEnv 200 "w" 0 0 [cancelRow] statsZero).table
        = markRunning 200 "w" cancelRow.id [cancelRow] ∧
      (∀ t ∈ (ProcessTasks cancelEnv 200 "w" 0 0 [cancelRow] statsZero).table,
          t.id = cancelRow.id → t.status = TaskStatus.running) ∧
      (ProcessTasks cancelEnv 200 "w" 0 0 [cancelRow] statsZero).stats
        = UpdateStats statsZero "" 1 0 0 0
            (some { cancelRow with
              code := "slow"
              started := some 200
              status := TaskStatus.running }) :=
  cancellation_no_further_updates cancelWorld cancelEnv 200 "w" 0 0 [cancelRow]
    statsZero cancelRow "slow" rfl rfl rfl rfl rfl rfl rfl (by decide) rfl rfl
    rfl rfl rfl

/-- C5: a claimed task whose sandbox execution fails on every attempt, with
no cancellation signalled, yields exactly three `ExecuteTaskInDocker`
invocations with consecutive invocations separated by a completed 2-second
backoff sleep (the trace is exec, backoff, exec, backoff, exec, backoff —
the source also sleeps once after the final attempt), after which the task
is marked terminal `failed` with `last_error` set to the final attempt's
error message and `finished` set, `tasks_failed` is incremented by exactly
1, `tasks_processed` by 1 at execution start, and `tasks_successful` is
untouched. -/
theorem exhausted_retries_mark_failed
    (env : Env) (now : Int) (workerID : String)
    (maxPriority minPriority : Int) (table : List Task) (stats : Stats)
    (task : Task) (script o0 o1 o2 e0 e1 e2 : String)
    (hb : env.beginErr = false) (hq : env.queryErr = false)
    (hclaim : claimOne env.locked minPriority maxPriority table = some task)
    (hcode : env.codeFetch = Except.ok script)
    (hben : env.analyze = Except.ok false)
    (hru : env.runUpdateErr = false) (hrc : env.runCommitErr = false)
    (h0 : env.att 0 = ⟨o0, some e0, false, false⟩)
    (h1 : env.att 1 = ⟨o1, some e1, false, false⟩)
    (h2 : env.att 2 = ⟨o2, some e2, false, false⟩)
    (hfail : env.failUpdateErr = false) :
    (ProcessTasks env now workerID maxPriority minPriority table stats).events
        = [Ev.execCall, Ev.backoff, Ev.execCall, Ev.backoff, Ev.execCall,
            Ev.backoff] ∧
      (ProcessTasks env now workerID maxPriority minPriority table stats).table
        = markFailed now e2 task.id (markRunning now workerID task.id table) ∧
      (∀ t ∈ (ProcessTasks env now workerID maxPriority minPriority table
          stats).table, t.id = task.id →
          t.status = TaskStatus.failed ∧ t.lastError = some e2 ∧
            t.finished = some now) ∧
      (ProcessTasks env now workerID maxPriority minPriority table
          stats).stats.failed = stats.failed + 1 ∧
      (ProcessTasks env now workerID maxPriority minPriority table
          stats).stats.processed = stats.processed + 1 ∧
      (ProcessTasks env now workerID maxPriority minPriority table
          stats).stats.successful = stats.successful := by
  have hloop : retryLoop env.att "" 0 3 =
      (RetryOut.exhausted e2,
        [Ev.execCall, Ev.backoff, Ev.execCall, Ev.backoff, Ev.execCall,
          Ev.backoff]) := by
    simp [retryLoop, h0, h1, h2]
  have hres : ProcessTasks env now workerID maxPriority minPriority table stats
      = ⟨markFailed now e2 task.id (markRunning now workerID task.id table),
          UpdateStats (UpdateStats stats "" 1 0 0 0
            (some { task with
              code := script
              started := some now
              status := TaskStatus.running })) "" 0 0 1 0 none,
          [Ev.execCall, Ev.backoff, Ev.execCall, Ev.backoff, Ev.execCall,
            Ev.backoff]⟩ := by
    unfold ProcessTasks
    rw [hb, hq, hclaim, hcode, hben, hru, hrc, hloop, hfail]
    simp
  refine ⟨by rw [hres], by rw [hres], ?_, by simp [hres, UpdateStats],
    by simp [hres, UpdateStats], by simp [hres, UpdateStats]⟩
  rw [hres]
  exact markFailed_status now e2 task.id _

/-- C5 witness: the exhausted-retries theorem instantiated on a concrete
one-row table, all hypotheses discharged by evaluation. -/
theorem exhausted_retries_mark_failed_witness :
    (ProcessTasks exhaustEnv 300 "w" 0 0 [exhaustRow] statsZero).events
        = [Ev.execCall, Ev.backoff, Ev.execCall, Ev.backoff, Ev.execCall,
            Ev.backoff] ∧
      (ProcessTasks exhaustEnv 300 "w" 0 0 [exhaustRow] statsZero).table
        = markFailed 300 "fault 2" exhaustRow.id
            (markRunning 300 "w" exhaustRow.id [exhaustRow]) ∧
      (∀ t ∈ (ProcessTasks exhaustEnv 300 "w" 0 0 [exhaustRow]
          statsZero).table, t.id = exhaustRow.id →
          t.status = TaskStatus.failed ∧ t.lastError = some "fault 2" ∧
            t.finished = some 300) ∧
      (ProcessTasks exhaustEnv 300 "w" 0 0 [exhaustRow]
          statsZero).stats.failed = statsZero.failed + 1 ∧
      (ProcessTasks exhaustEnv 300 "w" 0 0 [exhaustRow]
          statsZero).stats.processed = statsZero.processed + 1 ∧
      (ProcessTasks exhaustEnv 300 "w" 0 0 [exhaustRow]
          statsZero).stats.successful = statsZero.successful :=
  exhausted_retries_mark_failed exhaustEnv 300 "w" 0 0 [exhaustRow] statsZero
    exhaustRow "crashy" "" "" "" "fault 0" "fault 1" "fault 2" rfl rfl
    (by decide) rfl rfl rfl rfl rfl rfl rfl rfl

/-- C3 counterexample: on a wake triggered by the periodic fallback ticker
the loop attempts the claim-and-process cycle without running stale-task
recovery at all, so recovery does not precede the cycle on every wake. -/
theorem ticker_wake_skips_recovery :
    wakeCalls Wake.tick = [LoopCall.processCall] ∧
      LoopCall.recoverCall ∉ wakeCalls Wake.tick := by
  refine ⟨rfl, by decide⟩

/-- C3 (amended): stale-task recovery precedes the claim-and-process cycle
on the initial startup pass and on every notification-triggered wake, but a
ticker-triggered wake runs only the claim-and-process cycle, with no
recovery. -/
theorem recovery_runs_before_claim_except_ticker (w : Wake) :
    wakeCalls w =
      if w = Wake.tick then [LoopCall.processCall]
      else [LoopCall.recoverCall, LoopCall.processCall] := by
  cases w <;> rfl

/-- One `ProcessTasks` cycle preserves the counter invariant: it adds 1 to
`processed` when execution begins and at most 1 to exactly one of
`successful`/`failed` at finalisation. -/
theorem process_preserves_statsInv (env : Env) (now : Int) (workerID : String)
    (maxPriority minPriority : Int) (table : List Task) (stats : Stats)
    (h : statsInv stats) :
    statsInv (ProcessTasks env now workerID maxPriority minPriority table
      stats).stats := by
  unfold ProcessTasks
  unfold statsInv at h ⊢
  repeat' split
  all_goals simp_all [UpdateStats]
  all_goals omega

/-- One `RecoverTasks` pass preserves the counter invariant: it touches only
`database_failures`. -/
theorem recover_preserves_statsInv (dbErr : Bool) (now : Int) (s : WState)
    (h : statsInv s.stats) :
    statsInv (recoverStep dbErr now s).stats := by
  unfold recoverStep
  unfold statsInv at h ⊢
  split <;> simp_all [UpdateStats]

/-- The reach invariant over the unbounded-addition view of the counters:
a stepping stone for the wrap-aware statement, to which it transfers while
the counters stay below `2^64`. -/
theorem statsInv_runOps_unbounded (ops : List LoopOp) (workerID : String)
    (table : List Task) :
    statsInv (runOps ops (startState workerID table)).stats := by
  have hstart : statsInv (startState workerID table).stats := by
    simp [startState, statsZero, statsInv, UpdateStats]
  generalize startState workerID table = s at hstart ⊢
  induction ops generalizing s with
  | nil => exact hstart
  | cons op rest ih =>
    have hstep : statsInv (stepOp op s).stats := by
      cases op with
      | recoverOp e now => exact recover_preserves_statsInv e now s hstart
      | processOp env now wid maxP minP =>
        exact process_preserves_statsInv env now wid maxP minP s.table
          s.stats hstart
    exact ih _ hstep

/-- Wrapping update on wrapped stats equals wrapping the unbounded update:
stepwise `mod 2^64` addition agrees with taking the `mod` once at the end. -/
theorem UpdateStatsW_wrap (s : Stats) (id : String) (p su f d : Nat)
    (c : Option Task) :
    UpdateStatsW (wrapS s) id p su f d c = wrapS (UpdateStats s id p su f d c) := by
  simp [UpdateStatsW, UpdateStats, wrapS, Nat.mod_add_mod]

/-- `wrapS` is the identity on stats whose counters are below `2^64`. -/
theorem wrapS_eq_self (s : Stats) (h1 : s.processed < uint64Mod)
    (h2 : s.successful < uint64Mod) (h3 : s.failed < uint64Mod)
    (h4 : s.databaseFailures < uint64Mod) : wrapS s = s := by
  simp [wrapS, Nat.mod_eq_of_lt h1, Nat.mod_eq_of_lt h2, Nat.mod_eq_of_lt h3,
    Nat.mod_eq_of_lt h4]

/-- The wrapped cycle on wrapped stats is the wrap of the unbounded cycle:
the control flow of `ProcessTasks` never reads the stats, so both runs take
the same branches and differ only in the counter arithmetic. -/
theorem ProcessTasksW_wrap (env : Env) (now : Int) (workerID : String)
    (maxPriority minPriority : Int) (table : List Task) (stats : Stats) :
    ProcessTasksW env now workerID maxPriority minPriority table (wrapS stats)
      = ⟨(ProcessTasks env now workerID maxPriority minPriority table
            stats).table,
          wrapS (ProcessTasks env now workerID maxPriority minPriority table
            stats).stats,
          (ProcessTasks env now workerID maxPriority minPriority table
            stats).events⟩ := by
  unfold ProcessTasksW ProcessTasks
  repeat' split
  all_goals simp [UpdateStatsW_wrap]

/-- The wrapped recovery step is the wrap of the unbounded one. -/
theorem recoverStepW_wrap (dbErr : Bool) (now : Int) (table : List Task)
    (stats : Stats) :
    recoverStepW dbErr now ⟨table, wrapS stats⟩ =
      ⟨(recoverStep dbErr now ⟨table, stats⟩).table,
        wrapS (recoverStep dbErr now ⟨table, stats⟩).stats⟩ := by
  cases dbErr <;> simp [recoverStepW, recoverStep, UpdateStatsW_wrap]

/-- The wrapped run is the wrap of the unbounded run, for any operation
sequence. -/
theorem runOpsW_wrap (ops : List LoopOp) (table : List Task) (stats : Stats) :
    runOpsW ops ⟨table, wrapS stats⟩ =
      ⟨(runOps ops ⟨table, stats⟩).table,
        wrapS (runOps ops ⟨table, stats⟩).stats⟩ := by
  induction ops generalizing table stats with
  | nil => rfl
  | cons op rest ih =>
    have hstep : stepOpW op ⟨table, wrapS stats⟩ =
        ⟨(stepOp op ⟨table, stats⟩).table,
          wrapS (stepOp op ⟨table, stats⟩).stats⟩ := by
      cases op with
      | recoverOp e now => exact recoverStepW_wrap e now table stats
      | processOp env now wid maxP minP =>
        simp [stepOpW, stepOp, ProcessTasksW_wrap]
    have hW : runOpsW (op :: rest) ⟨table, wrapS stats⟩ =
        runOpsW rest (stepOpW op ⟨table, wrapS stats⟩) := rfl
    have hN : runOps (op :: rest) ⟨table, stats⟩ =
        runOps rest (stepOp op ⟨table, stats⟩) := rfl
    rw [hW, hN, hstep,
      ih (stepOp op ⟨table, stats⟩).table (stepOp op ⟨table, stats⟩).stats]

/-- One unbounded cycle increases each counter by at most 1. -/
theorem process_counter_step (env : Env) (now : Int) (workerID : String)
    (maxPriority minPriority : Int) (table : List Task) (stats : Stats) :
    (ProcessTasks env now workerID maxPriority minPriority table
        stats).stats.processed ≤ stats.processed + 1 ∧
      (ProcessTasks env now workerID maxPriority minPriority table
        stats).stats.successful ≤ stats.successful + 1 ∧
      (ProcessTasks env now workerID maxPriority minPriority table
        stats).stats.failed ≤ stats.failed + 1 ∧
      (ProcessTasks env now workerID maxPriority minPriority table
        stats).stats.databaseFailures ≤ stats.databaseFailures + 1 := by
  unfold ProcessTasks
  repeat' split
  all_goals simp [UpdateStats]

/-- One unbounded recovery step increases each counter by at most 1. -/
theorem recover_counter_step (dbErr : Bool) (now : Int) (s : WState) :
    (recoverStep dbErr now s).stats.processed ≤ s.stats.processed + 1 ∧
      (recoverStep dbErr now s).stats.successful ≤ s.stats.successful + 1 ∧
      (recoverStep dbErr now s).stats.failed ≤ s.stats.failed + 1 ∧
      (recoverStep dbErr now s).stats.databaseFailures
        ≤ s.stats.databaseFailures + 1 := by
  cases dbErr <;> simp [recoverStep, UpdateStats]

/-- After any unbounded run, each counter has grown by at most the number of
operations. -/
theorem runOps_counters_le (ops : List LoopOp) (s : WState) :
    (runOps ops s).stats.processed ≤ s.stats.processed + ops.length ∧
      (runOps ops s).stats.successful ≤ s.stats.successful + ops.length ∧
      (runOps ops s).stats.failed ≤ s.stats.failed + ops.length ∧
      (runOps ops s).stats.databaseFailures
        ≤ s.stats.databaseFailures + ops.length := by
  induction ops generalizing s with
  | nil => simp [runOps]
  | cons op rest ih =>
    have hstep : (stepOp op s).stats.processed ≤ s.stats.processed + 1 ∧
        (stepOp op s).stats.successful ≤ s.stats.successful + 1 ∧
        (stepOp op s).stats.failed ≤ s.stats.failed + 1 ∧
        (stepOp op s).stats.databaseFailures
          ≤ s.stats.databaseFailures + 1 := by
      cases op with
      | recoverOp e now => exact recover_counter_step e now s
      | processOp env now wid maxP minP =>
        exact process_counter_step env now wid maxP minP s.table s.stats
    have hrun : runOps (op :: rest) s = runOps rest (stepOp op s) := rfl
    have hrest := ih (stepOp op s)
    rw [hrun]
    simp only [List.length_cons]
    omega

/-- C10 counterexample: the Go counters are `uint64` with wrapping `+=`.
The `UpdateStats` call that adds 1 to `tasks_processed` when the counter
stands at `2^64 - 1` wraps it to 0 — an `UpdateStats` call CAN decrease a
counter, refuting the claim's no-decrease conjunct (and with it the
unbounded-sequence invariant, which fails once `tasks_processed` wraps
ahead of the finalisation counters). -/
theorem updateStats_wrap_decreases :
    (UpdateStatsW nearWrapStats "" 1 0 0 0 none).processed = 0 ∧
      (UpdateStatsW nearWrapStats "" 1 0 0 0 none).processed
        < nearWrapStats.processed := by
  have h : (UpdateStatsW nearWrapStats "" 1 0 0 0 none).processed
      = (uint64Mod - 1 + 1) % uint64Mod := rfl
  have h2 : uint64Mod - 1 + 1 = uint64Mod := by
    have : 1 ≤ uint64Mod := Nat.one_le_two_pow
    omega
  have h0 : (UpdateStatsW nearWrapStats "" 1 0 0 0 none).processed = 0 := by
    rw [h, h2, Nat.mod_self]
  refine ⟨h0, ?_⟩
  rw [h0]
  show 0 < uint64Mod - 1
  have : (4 : Nat) ≤ 2 ^ 64 := by
    calc (4 : Nat) = 2 ^ 2 := rfl
    _ ≤ 2 ^ 64 := Nat.pow_le_pow_right (by omega) (by omega)
  simp only [uint64Mod]
  omega

/-- C10 (amended): with the `uint64` wrapping of the Go counters made
explicit, every state reachable from the startup state by a sequence of
fewer than `2^64` worker-loop operations — so no counter can reach the wrap
point — satisfies `tasks_successful + tasks_failed ≤ tasks_processed`
(each cycle adds 1 to `tasks_processed` when execution begins and at most 1
to exactly one of `tasks_successful`/`tasks_failed` at finalisation), and
an `UpdateStats` call whose target counter stays below the `2^64` wrap
point never decreases that counter. -/
theorem stats_counters_invariant_wrapped :
    (∀ (ops : List LoopOp) (workerID : String) (table : List Task),
        ops.length < uint64Mod →
          statsInv (runOpsW ops (startStateW workerID table)).stats) ∧
      (∀ (s : Stats) (id : String) (p su f d : Nat) (c : Option Task),
        (s.processed + p < uint64Mod →
          s.processed ≤ (UpdateStatsW s id p su f d c).processed) ∧
          (s.successful + su < uint64Mod →
            s.successful ≤ (UpdateStatsW s id p su f d c).successful) ∧
          (s.failed + f < uint64Mod →
            s.failed ≤ (UpdateStatsW s id p su f d c).failed) ∧
          (s.databaseFailures + d < uint64Mod →
            s.databaseFailures
              ≤ (UpdateStatsW s id p su f d c).databaseFailures)) := by
  constructor
  · intro ops workerID table hlen
    have hzero : wrapS statsZero = statsZero := by
      simp [wrapS, statsZero]
    have hstartW : startStateW workerID table =
        ⟨table, wrapS (UpdateStats statsZero workerID 0 0 0 0 none)⟩ := by
      have hupd := UpdateStatsW_wrap statsZero workerID 0 0 0 0 none
      rw [hzero] at hupd
      show (⟨table, UpdateStatsW statsZero workerID 0 0 0 0 none⟩ : WState) = _
      rw [hupd]
    have hbridge := runOpsW_wrap ops table
      (UpdateStats statsZero workerID 0 0 0 0 none)
    have hstartN : (⟨table, UpdateStats statsZero workerID 0 0 0 0 none⟩ :
        WState) = startState workerID table := rfl
    rw [hstartW, hbridge, hstartN]
    have hbound := runOps_counters_le ops (startState workerID table)
    have hstart0 : (startState workerID table).stats.processed = 0 ∧
        (startState workerID table).stats.successful = 0 ∧
        (startState workerID table).stats.failed = 0 ∧
        (startState workerID table).stats.databaseFailures = 0 := by
      simp [startState, statsZero, UpdateStats]
    have hself : wrapS (runOps ops (startState workerID table)).stats =
        (runOps ops (startState workerID table)).stats := by
      refine wrapS_eq_self _ ?_ ?_ ?_ ?_ <;> omega
    show statsInv (wrapS (runOps ops (startState workerID table)).stats)
    rw [hself]
    exact statsInv_runOps_unbounded ops workerID table
  · intro s id p su f d c
    refine ⟨fun h => ?_, fun h => ?_, fun h => ?_, fun h => ?_⟩ <;>
      simp only [UpdateStatsW] <;>
      rw [Nat.mod_eq_of_lt h] <;> omega

/-- C10 witness: the wrap-aware invariant applied to the one-cycle sequence
over a concrete one-row table, and the no-wrap monotonicity applied at the
zero stats, with each hypothesis discharged by evaluation. -/
theorem stats_counters_invariant_wrapped_witness :
    statsInv (runOpsW [LoopOp.processOp exhaustEnv 300 "w" 0 0]
        (startStateW "w" [exhaustRow])).stats ∧
      statsZero.processed ≤
        (UpdateStatsW statsZero "" 1 0 0 0 none).processed :=
  ⟨stats_counters_invariant_wrapped.1
      [LoopOp.processOp exhaustEnv 300 "w" 0 0] "w" [exhaustRow]
      (by decide),
    (stats_counters_invariant_wrapped.2 statsZero "" 1 0 0 0 none).1
      (by decide)⟩

/-- C7 witness: the recovery theorem instantiated on a concrete table with
one stale and one fresh running row. -/
theorem recover_stale_correct_witness :
    List.Forall₂ (fun t t' =>
        (isStale 10000 t = true →
          t' = recoverRow 10000 t ∧ t'.status = TaskStatus.failed ∧
            t'.finished = some 10000 ∧
            t'.lastError = some "Timeout/Worker Crash (1h limit)") ∧
        (isStale 10000 t = false → t' = t))
      [staleRow, freshRow] (RecoverTasks 10000 [staleRow, freshRow]).1 ∧
    (RecoverTasks 10000 [staleRow, freshRow]).2 =
      ([staleRow, freshRow].filter (isStale 10000)).length ∧
    RecoverTasks 10000 (RecoverTasks 10000 [staleRow, freshRow]).1 =
      ((RecoverTasks 10000 [staleRow, freshRow]).1, 0) :=
  recover_stale_correct 10000 [staleRow, freshRow]

end Continuum

